import Mathlib

/-!
Shallow embedding of `src/server.js`, an Express service over an in-memory
list of product records. Route handlers become pure functions from the
request data and the current store to the new store and a response value;
the middleware chain (authenticate, validateProduct) is sequenced inside
each mutating route exactly as in the source. JS numbers are modelled as
rationals, JS `undefined`/absent object keys as `Option.none`.
-/

namespace ProductsApi

/-- A product record (src/server.js lines 10-35, 132-143). `description` is
`Option` because creation copies `req.body.description` verbatim, so a
record may hold no description at all. -/
structure Product where
  id : String
  name : String
  description : Option String
  price : ℚ
  category : String
  inStock : Bool
deriving DecidableEq, Repr

/-- A JSON value as it may appear in the `price` position of a request body:
a number, a string, or a boolean. -/
inductive JsVal
| num (x : ℚ)
| str (s : String)
| bool (b : Bool)
deriving DecidableEq, Repr

/-- A parsed JSON request body: each product field is present or absent.
`req.body` may also carry an `id` key, which the update route's spread merge
honours. -/
structure ReqBody where
  id : Option String
  name : Option String
  description : Option String
  price : Option JsVal
  category : Option String
  inStock : Option Bool
deriving DecidableEq, Repr

/-- JS truthiness of an optional string: `undefined` and `""` are falsy. -/
def truthyStr : Option String → Bool
| none => false
| some s => !s.isEmpty

/-- JS truthiness of an optional `price` value: `undefined`, `0`, `""` and
`false` are falsy. -/
def truthyPrice : Option JsVal → Bool
| none => false
| some (JsVal.num x) => x ≠ 0
| some (JsVal.str s) => !s.isEmpty
| some (JsVal.bool b) => b

/-- The typed errors forwarded to the error-handling middleware. `jsError`
stands for an unclassified runtime failure (e.g. a TypeError raised inside a
handler). -/
inductive AppError
| validationError (msg : String)
| notFoundError (msg : String)
| jsError (msg : String)
deriving DecidableEq, Repr

/-- Modelled from the spec: the error classes live in `src/errors.js`, which
`server.js` requires but which is missing from the sources. Per the spec,
`ValidationError` declares code 400, `NotFoundError` declares 404, and an
unclassified failure declares no code (the translator defaults to 500). -/
def AppError.statusCode : AppError → Option Nat
| AppError.validationError _ => some 400
| AppError.notFoundError _ => some 404
| AppError.jsError _ => none

/-- The error's `message` property. -/
def AppError.message : AppError → String
| AppError.validationError m => m
| AppError.notFoundError m => m
| AppError.jsError m => m

/-- `authenticate` middleware (src/server.js lines 48-54): the request passes
iff the `x-api-key` header is a truthy string equal to `process.env.API_KEY`
(a string must be present in the environment for any key to compare equal). -/
def authOk (apiKey secret : Option String) : Bool :=
  match apiKey with
  | none => false
  | some k => !k.isEmpty && (match secret with
      | some s => k == s
      | none => false)

/-- `validateProduct` middleware (src/server.js lines 57-65): name, price and
category must be truthy, and price must be a number greater than zero. -/
def validateProduct (b : ReqBody) : Option AppError :=
  if !truthyStr b.name || !truthyPrice b.price || !truthyStr b.category then
    some (AppError.validationError "Name, price, and category are required")
  else
    match b.price with
    | some (JsVal.num x) =>
        if x ≤ 0 then some (AppError.validationError "Price must be a positive number")
        else none
    | _ => some (AppError.validationError "Price must be a positive number")

/-- Whether `needle` matches `hay` starting at its head. -/
def matchesAt : List Char → List Char → Bool
| [], _ => true
| _ :: _, [] => false
| c :: cs, d :: ds => c == d && matchesAt cs ds

/-- Whether `needle` occurs as a contiguous sublist of `hay`. -/
def containsList (needle : List Char) : List Char → Bool
| [] => matchesAt needle []
| d :: ds => matchesAt needle (d :: ds) || containsList needle ds

/-- JS `s.toLowerCase()`, modelled on the character sequence. -/
def lowerStr (s : String) : List Char :=
  s.toList.map Char.toLower

/-- Case-insensitive substring test, the embedding of JS
`hay.toLowerCase().includes(needle.toLowerCase())`. -/
def includesCI (hay needle : String) : Bool :=
  containsList (lowerStr needle) (lowerStr hay)

/-- JS `Array.prototype.slice(s, e)` for non-negative indices. -/
def jsSlice (l : List Product) (s e : Nat) : List Product :=
  (l.drop s).take (e - s)

/-- The body of the list response `{total, page, limit, products}`. -/
structure ListResponse where
  total : Nat
  page : Nat
  limit : Nat
  products : List Product
deriving DecidableEq, Repr

/-- GET `/api/products` (src/server.js lines 75-95): optional category filter
(case-insensitive exact match; an empty string is falsy and disables the
filter, as `if (category)` does), then the slice
`[(page-1)*limit, page*limit)`. `page` and `limit` are taken as numbers. -/
def listProducts (category : Option String) (page limit : Nat)
    (store : List Product) : ListResponse :=
  let filteredProducts :=
    match category with
    | none => store
    | some c =>
        if c.isEmpty then store
        else store.filter (fun p => lowerStr p.category == lowerStr c)
  let startIndex := (page - 1) * limit
  let endIndex := page * limit
  { total := filteredProducts.length
    page := page
    limit := limit
    products := jsSlice filteredProducts startIndex endIndex }

/-- The message of the TypeError raised when `p.description` is `undefined`
and `.toLowerCase()` is called on it. -/
def descTypeErrorMsg : String :=
  "Cannot read properties of undefined (reading toLowerCase)"

/-- The filter inside GET `/api/products/search` (src/server.js lines
102-105): keeps records whose name or description contains the query,
case-insensitively. JS `||` short-circuits, so `p.description.toLowerCase()`
is only evaluated when the name does not match; if the description is absent
there, the whole filter throws a TypeError. -/
def searchFilter (q : String) : List Product → Except AppError (List Product)
| [] => Except.ok []
| p :: ps =>
    if includesCI p.name q then
      (searchFilter q ps).map (fun r => p :: r)
    else
      match p.description with
      | none => Except.error (AppError.jsError descTypeErrorMsg)
      | some d =>
          if includesCI d q then (searchFilter q ps).map (fun r => p :: r)
          else searchFilter q ps

/-- GET `/api/products/search` (src/server.js lines 98-108): a falsy `q`
(absent or empty) is a ValidationError; otherwise the store is filtered. -/
def searchProducts (q : Option String) (store : List Product) :
    Except AppError (List Product) :=
  match q with
  | none => Except.error (AppError.validationError "Search query is required")
  | some s =>
      if s.isEmpty then Except.error (AppError.validationError "Search query is required")
      else searchFilter s store

/-- GET `/api/products/:id` (src/server.js lines 125-129): first record with
a matching id, else NotFoundError. -/
def getById (pid : String) (store : List Product) : Except AppError Product :=
  match store.find? (fun p => p.id == pid) with
  | none => Except.error (AppError.notFoundError "Product not found")
  | some p => Except.ok p

/-- A route's response value, before JSON rendering. -/
inductive Resp
| unauthorized
| err (e : AppError)
| created (p : Product)
| okProduct (p : Product)
| noContent
deriving DecidableEq, Repr

/-- `req.body.inStock || true` (src/server.js line 139): JS `x || y` yields
`x` when `x` is truthy and `y` otherwise, so an absent or `false` value both
fall back to `true`. -/
def inStockOrTrue (x : Option Bool) : Bool :=
  match x with
  | some b => if b then b else true
  | none => true

/-- The price a validated body assigns. `validateProduct` has already
ensured `price` is a number, so the other branches are unreachable on the
routes that use this. -/
def priceNum : Option JsVal → ℚ
| some (JsVal.num x) => x
| _ => 0

/-- POST `/api/products` (src/server.js lines 132-143): authenticate, then
validate, then append a record with a fresh id (`newId` stands for the
`uuidv4()` call). -/
def postProducts (secret apiKey : Option String) (b : ReqBody) (newId : String)
    (store : List Product) : List Product × Resp :=
  if !authOk apiKey secret then (store, Resp.unauthorized)
  else
    match validateProduct b with
    | some e => (store, Resp.err e)
    | none =>
        let product : Product :=
          { id := newId
            name := b.name.getD ""
            description := b.description
            price := priceNum b.price
            category := b.category.getD ""
            inStock := inStockOrTrue b.inStock }
        (store ++ [product], Resp.created product)

/-- The spread merge `{...products[index], ...req.body}` (src/server.js line
150): every key present in the body overwrites the stored field, including
`id`; absent keys leave the stored field untouched. A non-numeric body price
never reaches this merge because the PUT route validates the body first. -/
def mergeProduct (p : Product) (b : ReqBody) : Product :=
  { id := b.id.getD p.id
    name := b.name.getD p.name
    description := match b.description with
      | some d => some d
      | none => p.description
    price := match b.price with
      | some (JsVal.num x) => x
      | _ => p.price
    category := b.category.getD p.category
    inStock := b.inStock.getD p.inStock }

/-- `findIndex` + in-place assignment of the merged record: replaces the
first record whose id matches, returning the new store and the merged
record, or `none` when no record matches. -/
def updateInStore (pid : String) (b : ReqBody) :
    List Product → Option (List Product × Product)
| [] => none
| p :: ps =>
    if p.id == pid then some (mergeProduct p b :: ps, mergeProduct p b)
    else
      match updateInStore pid b ps with
      | some (ps2, m) => some (p :: ps2, m)
      | none => none

/-- PUT `/api/products/:id` (src/server.js lines 146-152): authenticate,
validate, find the record, spread-merge the body over it. -/
def putProduct (secret apiKey : Option String) (pid : String) (b : ReqBody)
    (store : List Product) : List Product × Resp :=
  if !authOk apiKey secret then (store, Resp.unauthorized)
  else
    match validateProduct b with
    | some e => (store, Resp.err e)
    | none =>
        match updateInStore pid b store with
        | none => (store, Resp.err (AppError.notFoundError "Product not found"))
        | some (store2, m) => (store2, Resp.okProduct m)

/-- `findIndex` + `splice(index, 1)`: removes the first record whose id
matches, or `none` when no record matches. -/
def deleteInStore (pid : String) : List Product → Option (List Product)
| [] => none
| p :: ps =>
    if p.id == pid then some ps
    else (deleteInStore pid ps).map (fun r => p :: r)

/-- DELETE `/api/products/:id` (src/server.js lines 155-161): authenticate,
find the record, splice it out, answer 204. -/
def deleteProduct (secret apiKey : Option String) (pid : String)
    (store : List Product) : List Product × Resp :=
  if !authOk apiKey secret then (store, Resp.unauthorized)
  else
    match deleteInStore pid store with
    | none => (store, Resp.err (AppError.notFoundError "Product not found"))
    | some store2 => (store2, Resp.noContent)

/-- The error forwarded by the catch-all 404 middleware (src/server.js lines
164-166). -/
def unmatchedRouteError : AppError := AppError.notFoundError "Endpoint not found"

/-- A rendered HTTP response body. The unauthorized short-circuit writes
`{message}`, the error translator writes `{error: {message, status,
timestamp}}`; they are distinct shapes. -/
inductive HttpBody
| unauthorizedMsg (message : String)
| errorEnvelope (message : String) (status : Nat) (timestamp : String)
| productJson (p : Product)
| pageJson (r : ListResponse)
| productsJson (ps : List Product)
| empty
deriving DecidableEq, Repr

/-- The error-handling middleware (src/server.js lines 169-181): status is
the error's declared `statusCode` or 500, message falls back when empty, and
the envelope carries a timestamp (`now`). -/
def errorTranslator (e : AppError) (now : String) : Nat × HttpBody :=
  let statusCode := e.statusCode.getD 500
  let message := if e.message.isEmpty then "Internal Server Error" else e.message
  (statusCode, HttpBody.errorEnvelope message statusCode now)

/-- Final rendering of a route response to an HTTP status and body: the
unauthorized path writes its own `{message: "Unauthorized"}` (line 51);
errors flow through the translator; 201/200/204 come from the handlers. -/
def renderResp (r : Resp) (now : String) : Nat × HttpBody :=
  match r with
  | Resp.unauthorized => (401, HttpBody.unauthorizedMsg "Unauthorized")
  | Resp.err e => errorTranslator e now
  | Resp.created p => (201, HttpBody.productJson p)
  | Resp.okProduct p => (200, HttpBody.productJson p)
  | Resp.noContent => (204, HttpBody.empty)

/-- Decidable equality for route results carried in `Except`. -/
instance instDecidableEqExcept {ε α : Type} [DecidableEq ε] [DecidableEq α] :
    DecidableEq (Except ε α) := fun x y =>
  match x, y with
  | Except.ok a, Except.ok b =>
      if h : a = b then Decidable.isTrue (by rw [h])
      else Decidable.isFalse (fun hh => h (by cases hh; rfl))
  | Except.ok _, Except.error _ => Decidable.isFalse (fun hh => Except.noConfusion hh)
  | Except.error _, Except.ok _ => Decidable.isFalse (fun hh => Except.noConfusion hh)
  | Except.error a, Except.error b =>
      if h : a = b then Decidable.isTrue (by rw [h])
      else Decidable.isFalse (fun hh => h (by cases hh; rfl))

/-- The spec's search predicate: the record's name or description contains
the query as a case-insensitive substring. Stated for records that carry a
description (`getD ""` is only a placeholder for the absent case, which the
theorems exclude by hypothesis). -/
def specMatches (q : String) (p : Product) : Bool :=
  includesCI p.name q || includesCI (p.description.getD "") q

/-- The spec's category predicate: case-insensitive exact match. -/
def matchesCategory (c : String) (p : Product) : Bool :=
  lowerStr p.category == lowerStr c

/-- Test fixture: an Electronics record with a description. -/
def sampleLaptop : Product :=
  ⟨"a", "Laptop", some "High performance laptop", 999, "Electronics", true⟩

/-- Test fixture: a second Electronics record. -/
def sampleSmartphone : Product :=
  ⟨"b", "Smartphone", some "Latest model smartphone", 699, "Electronics", true⟩

/-- Test fixture: a Furniture record. -/
def sampleChair : Product :=
  ⟨"c", "Desk Chair", some "Ergonomic office chair", 199, "Furniture", false⟩

/-- Test fixture: a record created without a description, as POST produces
when the body omits one. -/
def sampleNoDesc : Product := ⟨"d", "Widget", none, 5, "Misc", true⟩

lemma exceptMap_error_iff {ε α : Type} {e : ε} {f : α → α} {x : Except ε α} :
    x.map f = Except.error e ↔ x = Except.error e := by
  cases x <;> simp [Except.map]

lemma searchFilter_ok_of_desc (q : String) :
    ∀ l : List Product, (∀ p ∈ l, p.description ≠ none) →
      searchFilter q l = Except.ok (l.filter (fun p => specMatches q p)) := by
  intro l
  induction l with
  | nil => intro _; simp [searchFilter]
  | cons p ps ih =>
      intro h
      have hp := h p (List.mem_cons_self p ps)
      have hps : ∀ r ∈ ps, r.description ≠ none :=
        fun r hr => h r (List.mem_cons_of_mem p hr)
      obtain ⟨d, hd⟩ : ∃ d, p.description = some d := by
        cases hcase : p.description with
        | none => exact absurd hcase hp
        | some d => exact ⟨d, rfl⟩
      by_cases h1 : includesCI p.name q
      · simp [searchFilter, h1, ih hps, Except.map, List.filter_cons, specMatches]
      · have h1' : includesCI p.name q = false := by simpa using h1
        by_cases h2 : includesCI d q
        · simp [searchFilter, h1', hd, h2, ih hps, Except.map, List.filter_cons, specMatches]
        · have h2' : includesCI d q = false := by simpa using h2
          simp [searchFilter, h1', hd, h2', ih hps, List.filter_cons, specMatches]

lemma searchFilter_error_iff (q : String) :
    ∀ l : List Product,
      (searchFilter q l = Except.error (AppError.jsError descTypeErrorMsg) ↔
        ∃ p ∈ l, p.description = none ∧ includesCI p.name q = false) := by
  intro l
  induction l with
  | nil => simp [searchFilter]
  | cons p ps ih =>
      by_cases h1 : includesCI p.name q
      · simp [searchFilter, h1, exceptMap_error_iff, ih]
      · have h1' : includesCI p.name q = false := by simpa using h1
        cases hd : p.description with
        | none => simp [searchFilter, h1', hd]
        | some d =>
            by_cases h2 : includesCI d q
            · simp [searchFilter, h1', hd, h2, exceptMap_error_iff, ih]
            · have h2' : includesCI d q = false := by simpa using h2
              simp [searchFilter, h1', hd, h2', ih]

lemma updateInStore_append (pid : String) (b : ReqBody) (p : Product) (hp : p.id = pid) :
    ∀ (pre post : List Product), (∀ q ∈ pre, q.id ≠ pid) →
      updateInStore pid b (pre ++ p :: post) =
        some (pre ++ mergeProduct p b :: post, mergeProduct p b) := by
  intro pre
  induction pre with
  | nil => intro post _; simp [updateInStore, hp]
  | cons r pre' ih =>
      intro post h
      have hr : (r.id == pid) = false := by
        simpa using h r (List.mem_cons_self r pre')
      have hrest : ∀ q ∈ pre', q.id ≠ pid :=
        fun q hq => h q (List.mem_cons_of_mem r hq)
      simp [updateInStore, hr, ih post hrest]

lemma updateInStore_map_id (pid : String) (b : ReqBody) (hid : b.id = none) :
    ∀ (l l' : List Product) (m : Product), updateInStore pid b l = some (l', m) →
      l'.map Product.id = l.map Product.id := by
  intro l
  induction l with
  | nil => intro l' m h; simp [updateInStore] at h
  | cons p ps ih =>
      intro l' m h
      by_cases hp : (p.id == pid)
      · simp [updateInStore, hp] at h
        obtain ⟨rfl, -⟩ := h
        simp [mergeProduct, hid]
      · have hp' : (p.id == pid) = false := by simpa using hp
        simp [updateInStore, hp'] at h
        cases hrec : updateInStore pid b ps with
        | none => rw [hrec] at h; simp at h
        | some pr =>
            obtain ⟨ps2, m2⟩ := pr
            rw [hrec] at h
            simp at h
            obtain ⟨rfl, -⟩ := h
            simp [ih ps2 m2 hrec]

lemma deleteInStore_append (pid : String) (p : Product) (hp : p.id = pid) :
    ∀ (pre post : List Product), (∀ q ∈ pre, q.id ≠ pid) →
      deleteInStore pid (pre ++ p :: post) = some (pre ++ post) := by
  intro pre
  induction pre with
  | nil => intro post _; simp [deleteInStore, hp]
  | cons r pre' ih =>
      intro post h
      have hr : (r.id == pid) = false := by
        simpa using h r (List.mem_cons_self r pre')
      have hrest : ∀ q ∈ pre', q.id ≠ pid :=
        fun q hq => h q (List.mem_cons_of_mem r hq)
      simp [deleteInStore, hr, ih post hrest]

lemma deleteInStore_none (pid : String) :
    ∀ l : List Product, (∀ p ∈ l, p.id ≠ pid) → deleteInStore pid l = none := by
  intro l
  induction l with
  | nil => intro _; simp [deleteInStore]
  | cons p ps ih =>
      intro h
      have hp : (p.id == pid) = false := by
        simpa using h p (List.mem_cons_self p ps)
      have hps : ∀ q ∈ ps, q.id ≠ pid :=
        fun q hq => h q (List.mem_cons_of_mem p hq)
      simp [deleteInStore, hp, ih hps]

lemma deleteInStore_sublist (pid : String) :
    ∀ (l l' : List Product), deleteInStore pid l = some l' → l'.Sublist l := by
  intro l
  induction l with
  | nil => intro l' h; simp [deleteInStore] at h
  | cons p ps ih =>
      intro l' h
      by_cases hp : (p.id == pid)
      · simp [deleteInStore, hp] at h
        subst h
        exact List.sublist_cons_self p ps
      · have hp' : (p.id == pid) = false := by simpa using hp
        simp [deleteInStore, hp'] at h
        cases hrec : deleteInStore pid ps with
        | none => rw [hrec] at h; simp at h
        | some r =>
            rw [hrec] at h
            simp at h
            subst h
            exact List.Sublist.cons₂ p (ih r hrec)

lemma getById_not_mem (pid : String) (l : List Product) (h : ∀ p ∈ l, p.id ≠ pid) :
    getById pid l = Except.error (AppError.notFoundError "Product not found") := by
  have : l.find? (fun p => p.id == pid) = none := by
    rw [List.find?_eq_none]
    intro p hp
    simpa using h p hp
  simp [getById, this]

lemma nodup_middle_ids {pre post : List Product} {p : Product}
    (h : ((pre ++ p :: post).map Product.id).Nodup) :
    (∀ q ∈ pre, q.id ≠ p.id) ∧ (∀ q ∈ post, q.id ≠ p.id) := by
  rw [List.map_append, List.map_cons, List.nodup_middle, List.nodup_cons] at h
  have hnot := h.1
  rw [List.mem_append] at hnot
  constructor
  · intro q hq hqe
    exact hnot (Or.inl (by rw [← hqe]; exact List.mem_map_of_mem Product.id hq))
  · intro q hq hqe
    exact hnot (Or.inr (by rw [← hqe]; exact List.mem_map_of_mem Product.id hq))

lemma find?_append_first (pid : String) (m : Product) (hm : m.id = pid) :
    ∀ (pre post : List Product), (∀ q ∈ pre, q.id ≠ pid) →
      List.find? (fun p => p.id == pid) (pre ++ m :: post) = some m := by
  intro pre
  induction pre with
  | nil =>
      intro post _
      simp [List.find?_cons, hm]
  | cons r pre' ih =>
      intro post h
      have hr : (r.id == pid) = false := by
        simpa using h r (List.mem_cons_self r pre')
      rw [List.cons_append]
      simp only [List.find?_cons, hr]
      exact ih post (fun q hq => h q (List.mem_cons_of_mem r hq))

lemma getById_append (pid : String) (m : Product) (hm : m.id = pid)
    (pre post : List Product) (h : ∀ q ∈ pre, q.id ≠ pid) :
    getById pid (pre ++ m :: post) = Except.ok m := by
  simp [getById, find?_append_first pid m hm pre post h]

lemma validateProduct_invalid (b : ReqBody)
    (hbad : b.name = none ∨ b.price = none ∨ b.category = none ∨
      (∃ x, b.price = some (JsVal.num x) ∧ x ≤ 0) ∨
      (∃ t, b.price = some (JsVal.str t)) ∨
      (∃ bo, b.price = some (JsVal.bool bo))) :
    ∃ msg, validateProduct b = some (AppError.validationError msg) := by
  unfold validateProduct
  by_cases hc : (!truthyStr b.name || !truthyPrice b.price || !truthyStr b.category) = true
  · rw [if_pos hc]; exact ⟨_, rfl⟩
  · rw [if_neg hc]
    have hcc : truthyStr b.name = true ∧ truthyPrice b.price = true ∧
        truthyStr b.category = true := by
      constructor
      · by_contra hn
        exact hc (by simp [Bool.not_eq_true] at hn; simp [hn])
      constructor
      · by_contra hn
        exact hc (by simp [Bool.not_eq_true] at hn; simp [hn])
      · by_contra hn
        exact hc (by simp [Bool.not_eq_true] at hn; simp [hn])
    rcases hbad with hn | hn | hn | ⟨x, hx, hxle⟩ | ⟨t, ht⟩ | ⟨bo, hbo⟩
    · rw [hn] at hcc; simp [truthyStr] at hcc
    · rw [hn] at hcc; simp [truthyPrice] at hcc
    · rw [hn] at hcc; simp [truthyStr] at hcc
    · rw [hx]
      refine ⟨"Price must be a positive number", ?_⟩
      simp [hxle]
    · rw [ht]; exact ⟨_, rfl⟩
    · rw [hbo]; exact ⟨_, rfl⟩

/-- Test fixture: a body supplying only `{price: 50}`. -/
def bodyPriceOnly : ReqBody := ⟨none, none, none, some (JsVal.num 50), none, none⟩

/-- Test fixture: a validation-passing update body setting the price to 50
and restating the laptop's name and category. -/
def bodyLaptopPrice50 : ReqBody :=
  ⟨none, some "Laptop", none, some (JsVal.num 50), some "Electronics", none⟩

/-- Test fixture: a validation-passing body whose `id` key collides with the
smartphone record's id. -/
def bodyHijackId : ReqBody :=
  ⟨some "b", some "X", none, some (JsVal.num 5), some "C", none⟩

/-- Test fixture: a validation-passing body supplying `inStock: false`. -/
def bodyInStockFalse : ReqBody :=
  ⟨none, some "X", none, some (JsVal.num 5), some "C", some false⟩

/-- Test fixture: a body whose price is `-5`. -/
def bodyNegativePrice : ReqBody :=
  ⟨none, some "X", none, some (JsVal.num (-5)), some "C", none⟩

/-- C3: for every authorized create request that passes validation, if the
body omits `inStock` or explicitly supplies `inStock: false`, the created
product (appended to the store and echoed with 201) has `inStock = true`,
because `req.body.inStock || true` does not distinguish omission from an
explicit falsy value. -/
theorem claim_C3_create_inStock_true (secret apiKey : Option String) (b : ReqBody)
    (newId : String) (store : List Product)
    (hauth : authOk apiKey secret = true) (hval : validateProduct b = none)
    (hst : b.inStock = none ∨ b.inStock = some false) :
    ∃ p : Product,
      postProducts secret apiKey b newId store = (store ++ [p], Resp.created p) ∧
      p.inStock = true := by
  refine ⟨{ id := newId, name := b.name.getD "", description := b.description,
            price := priceNum b.price, category := b.category.getD "",
            inStock := inStockOrTrue b.inStock }, ?_, ?_⟩
  · simp [postProducts, hauth, hval]
  · rcases hst with h | h <;> simp [inStockOrTrue, h]

/-- C3 witness: creating with an explicit `inStock: false` yields a product
stored with `inStock = true`. -/
theorem claim_C3_witness :
    ∃ p : Product,
      postProducts (some "k") (some "k") bodyInStockFalse "n1" [] = ([] ++ [p], Resp.created p) ∧
      p.inStock = true :=
  claim_C3_create_inStock_true (some "k") (some "k") bodyInStockFalse "n1" []
    (by decide) (by decide) (Or.inr rfl)

/-- C7: an authorized create whose body has a missing name, price or
category, a non-numeric price, or a non-positive price, fails with a
ValidationError rendered as HTTP 400, and the store is unchanged. -/
theorem claim_C7_create_invalid (secret apiKey : Option String) (b : ReqBody)
    (newId : String) (store : List Product)
    (hauth : authOk apiKey secret = true)
    (hbad : b.name = none ∨ b.price = none ∨ b.category = none ∨
      (∃ x, b.price = some (JsVal.num x) ∧ x ≤ 0) ∨
      (∃ t, b.price = some (JsVal.str t)) ∨
      (∃ bo, b.price = some (JsVal.bool bo))) :
    ∃ msg,
      postProducts secret apiKey b newId store = (store, Resp.err (AppError.validationError msg)) ∧
      ∀ now, (renderResp (Resp.err (AppError.validationError msg)) now).1 = 400 := by
  obtain ⟨msg, hmsg⟩ := validateProduct_invalid b hbad
  exact ⟨msg, by simp [postProducts, hauth, hmsg], fun _ => rfl⟩

/-- C7 witness: creating with `price: -5` is a 400 ValidationError and does
not mutate a one-record store. -/
theorem claim_C7_witness :
    ∃ msg,
      postProducts (some "k") (some "k") bodyNegativePrice "n1" [sampleLaptop] =
        ([sampleLaptop], Resp.err (AppError.validationError msg)) ∧
      ∀ now, (renderResp (Resp.err (AppError.validationError msg)) now).1 = 400 :=
  claim_C7_create_invalid (some "k") (some "k") bodyNegativePrice "n1" [sampleLaptop]
    (by decide)
    (Or.inr (Or.inr (Or.inr (Or.inl ⟨-5, rfl, by norm_num⟩))))

/-- C8: a create, update or delete request whose `x-api-key` header is
absent or differs from the configured secret answers 401 with the dedicated
`{message: "Unauthorized"}` body (a shape distinct from the error
translator's envelope), and leaves the store unchanged. -/
theorem claim_C8_unauthorized_no_mutation (secret apiKey : Option String) (b : ReqBody)
    (pid newId : String) (store : List Product)
    (h : apiKey = none ∨ ∃ k, apiKey = some k ∧ secret ≠ some k) :
    postProducts secret apiKey b newId store = (store, Resp.unauthorized) ∧
    putProduct secret apiKey pid b store = (store, Resp.unauthorized) ∧
    deleteProduct secret apiKey pid store = (store, Resp.unauthorized) ∧
    (∀ now, renderResp Resp.unauthorized now = (401, HttpBody.unauthorizedMsg "Unauthorized")) := by
  have hfalse : authOk apiKey secret = false := by
    rcases h with h | ⟨k, rfl, hs⟩
    · simp [authOk, h]
    · cases secret with
      | none => simp [authOk]
      | some s =>
          have hk : (k == s) = false := by
            rw [beq_eq_false_iff_ne]
            intro he
            exact hs (by rw [he])
          simp [authOk, hk]
  exact ⟨by simp [postProducts, hfalse], by simp [putProduct, hfalse],
    by simp [deleteProduct, hfalse], fun _ => rfl⟩

/-- C8 witness: a wrong key is rejected with 401 on all three mutating
routes and the store is untouched. -/
theorem claim_C8_witness :
    postProducts (some "right") (some "wrong") bodyInStockFalse "n1" [sampleLaptop] =
      ([sampleLaptop], Resp.unauthorized) ∧
    putProduct (some "right") (some "wrong") "a" bodyInStockFalse [sampleLaptop] =
      ([sampleLaptop], Resp.unauthorized) ∧
    deleteProduct (some "right") (some "wrong") "a" [sampleLaptop] =
      ([sampleLaptop], Resp.unauthorized) ∧
    (∀ now, renderResp Resp.unauthorized now = (401, HttpBody.unauthorizedMsg "Unauthorized")) :=
  claim_C8_unauthorized_no_mutation (some "right") (some "wrong") bodyInStockFalse "a" "n1"
    [sampleLaptop] (Or.inr ⟨"wrong", rfl, by decide⟩)

/-- C1 counterexample: an authorized PUT whose body is the single field
`{price: 50}` does not succeed: `validateProduct` also runs on PUT and
rejects the body because name and category are absent, so the response is a
ValidationError and a subsequent `getById` still sees the old price
(999, not 50). -/
theorem claim_C1_counterexample :
    putProduct (some "k") (some "k") "a" bodyPriceOnly [sampleLaptop] =
      ([sampleLaptop], Resp.err (AppError.validationError "Name, price, and category are required")) ∧
    getById "a" [sampleLaptop] = Except.ok sampleLaptop ∧
    sampleLaptop.price ≠ 50 := by decide

/-- C1 amended: an authorized PUT whose body passes validation (name,
positive numeric price and category present) succeeds on a present id: the
stored record is replaced by the spread merge, the rest of the store is
untouched, a subsequent `getById` (when the body carries no `id` key)
returns the merged record, and the merge overwrites exactly the supplied
fields while absent fields keep their stored values. -/
theorem claim_C1_put_partial_merge (secret apiKey : Option String) (b : ReqBody)
    (pre post : List Product) (p : Product)
    (hauth : authOk apiKey secret = true) (hval : validateProduct b = none)
    (hpre : ∀ q ∈ pre, q.id ≠ p.id) :
    putProduct secret apiKey p.id b (pre ++ p :: post) =
      (pre ++ mergeProduct p b :: post, Resp.okProduct (mergeProduct p b)) ∧
    (b.id = none →
      getById p.id (pre ++ mergeProduct p b :: post) = Except.ok (mergeProduct p b)) ∧
    (∀ x, b.price = some (JsVal.num x) → (mergeProduct p b).price = x) ∧
    (∀ n, b.name = some n → (mergeProduct p b).name = n) ∧
    (∀ c, b.category = some c → (mergeProduct p b).category = c) ∧
    (∀ d, b.description = some d → (mergeProduct p b).description = some d) ∧
    (∀ s, b.inStock = some s → (mergeProduct p b).inStock = s) ∧
    (b.name = none → (mergeProduct p b).name = p.name) ∧
    (b.category = none → (mergeProduct p b).category = p.category) ∧
    (b.description = none → (mergeProduct p b).description = p.description) ∧
    (b.inStock = none → (mergeProduct p b).inStock = p.inStock) ∧
    (b.id = none → (mergeProduct p b).id = p.id) := by
  refine ⟨?_, ?_, ?_, ?_, ?_, ?_, ?_, ?_, ?_, ?_, ?_, ?_⟩
  · simp [putProduct, hauth, hval, updateInStore_append p.id b p rfl pre post hpre]
  · intro hid
    exact getById_append p.id (mergeProduct p b) (by simp [mergeProduct, hid]) pre post hpre
  · intro x hx; simp [mergeProduct, hx]
  · intro n hn; simp [mergeProduct, hn]
  · intro c hc; simp [mergeProduct, hc]
  · intro d hd; simp [mergeProduct, hd]
  · intro s hs; simp [mergeProduct, hs]
  · intro hn; simp [mergeProduct, hn]
  · intro hc; simp [mergeProduct, hc]
  · intro hd; simp [mergeProduct, hd]
  · intro hs; simp [mergeProduct, hs]
  · intro hid; simp [mergeProduct, hid]

/-- C1 witness: a validation-passing body that sets the price to 50 updates
the laptop record, `getById` sees price 50, and description, inStock and id
are untouched. -/
theorem claim_C1_witness :
    putProduct (some "k") (some "k") sampleLaptop.id bodyLaptopPrice50 ([] ++ sampleLaptop :: []) =
      ([] ++ mergeProduct sampleLaptop bodyLaptopPrice50 :: [],
        Resp.okProduct (mergeProduct sampleLaptop bodyLaptopPrice50)) ∧
    getById sampleLaptop.id ([] ++ mergeProduct sampleLaptop bodyLaptopPrice50 :: []) =
      Except.ok (mergeProduct sampleLaptop bodyLaptopPrice50) ∧
    (mergeProduct sampleLaptop bodyLaptopPrice50).price = 50 ∧
    (mergeProduct sampleLaptop bodyLaptopPrice50).description = sampleLaptop.description ∧
    (mergeProduct sampleLaptop bodyLaptopPrice50).inStock = sampleLaptop.inStock ∧
    (mergeProduct sampleLaptop bodyLaptopPrice50).id = sampleLaptop.id := by
  have h := claim_C1_put_partial_merge (some "k") (some "k") bodyLaptopPrice50 [] []
    sampleLaptop (by decide) (by decide) (by decide)
  exact ⟨h.1, h.2.1 rfl, h.2.2.1 50 rfl, h.2.2.2.2.2.2.2.2.2.1 rfl,
    h.2.2.2.2.2.2.2.2.2.2.1 rfl, h.2.2.2.2.2.2.2.2.2.2.2 rfl⟩

/-- C2 counterexample: an authorized, validation-passing update whose body
carries an `id` key overwrites the record's id: targeting record "a" with a
body whose id is "b" leaves the store with ids `["b", "b"]`, so the updated
record's id changed and the store's ids are no longer pairwise distinct. -/
theorem claim_C2_counterexample :
    (putProduct (some "k") (some "k") "a" bodyHijackId [sampleLaptop, sampleSmartphone]).1.map
        Product.id = ["b", "b"] ∧
    ¬ ((putProduct (some "k") (some "k") "a" bodyHijackId
        [sampleLaptop, sampleSmartphone]).1.map Product.id).Nodup ∧
    (mergeProduct sampleLaptop bodyHijackId).id ≠ "a" := by decide

/-- C2 amended: ids are stable and pairwise distinct as long as update
bodies carry no `id` key: an update whose body omits `id` leaves the store's
id sequence unchanged (hence still unique), a create whose fresh id is not
already present preserves uniqueness, and delete preserves uniqueness; but
an update body may overwrite `id` (see the counterexample). -/
theorem claim_C2_ids_stable (secret apiKey : Option String) (b : ReqBody)
    (pid newId : String) (store : List Product)
    (hnodup : (store.map Product.id).Nodup) :
    (b.id = none →
      (putProduct secret apiKey pid b store).1.map Product.id = store.map Product.id ∧
      ((putProduct secret apiKey pid b store).1.map Product.id).Nodup) ∧
    (newId ∉ store.map Product.id →
      ((postProducts secret apiKey b newId store).1.map Product.id).Nodup) ∧
    ((deleteProduct secret apiKey pid store).1.map Product.id).Nodup := by
  refine ⟨?_, ?_, ?_⟩
  · intro hid
    have hmap : (putProduct secret apiKey pid b store).1.map Product.id =
        store.map Product.id := by
      by_cases ha : authOk apiKey secret
      · cases hv : validateProduct b with
        | some e => simp [putProduct, ha, hv]
        | none =>
            cases hu : updateInStore pid b store with
            | none => simp [putProduct, ha, hv, hu]
            | some pr =>
                obtain ⟨l2, m⟩ := pr
                simp [putProduct, ha, hv, hu, updateInStore_map_id pid b hid store l2 m hu]
      · have ha' : authOk apiKey secret = false := by simpa using ha
        simp [putProduct, ha']
    exact ⟨hmap, hmap ▸ hnodup⟩
  · intro hnew
    by_cases ha : authOk apiKey secret
    · cases hv : validateProduct b with
      | some e => simpa [postProducts, ha, hv] using hnodup
      | none =>
          simp only [postProducts, ha, hv, Bool.not_true, Bool.false_eq_true,
            if_false, ite_false]
          rw [List.map_append, List.map_cons, List.map_nil, List.nodup_middle]
          rw [List.append_nil, List.nodup_cons]
          exact ⟨hnew, hnodup⟩
    · have ha' : authOk apiKey secret = false := by simpa using ha
      simpa [postProducts, ha'] using hnodup
  · by_cases ha : authOk apiKey secret
    · cases hd : deleteInStore pid store with
      | none => simpa [deleteProduct, ha, hd] using hnodup
      | some l2 =>
          have hsub : (l2.map Product.id).Sublist (store.map Product.id) :=
            (deleteInStore_sublist pid store l2 hd).map Product.id
          simpa [deleteProduct, ha, hd] using List.Nodup.sublist hsub hnodup
    · have ha' : authOk apiKey secret = false := by simpa using ha
      simpa [deleteProduct, ha'] using hnodup

/-- C2 witness: on a one-record store with a body that omits `id`, the id
sequence survives an update unchanged, and create (with a fresh id) and
delete keep the ids pairwise distinct. -/
theorem claim_C2_witness :
    (putProduct (some "k") (some "k") "a" bodyLaptopPrice50 [sampleLaptop]).1.map Product.id =
      [sampleLaptop].map Product.id ∧
    ((postProducts (some "k") (some "k") bodyLaptopPrice50 "z" [sampleLaptop]).1.map
      Product.id).Nodup ∧
    ((deleteProduct (some "k") (some "k") "a" [sampleLaptop]).1.map Product.id).Nodup := by
  have h := claim_C2_ids_stable (some "k") (some "k") bodyLaptopPrice50 "a" "z"
    [sampleLaptop] (by decide)
  exact ⟨(h.1 rfl).1, h.2.1 (by decide), h.2.2⟩

/-- C9: on a store with pairwise-distinct ids (the data model's invariant),
an authorized delete of an absent id is a 404 NotFoundError and leaves the
store unchanged; deleting a present id removes exactly that record, keeps
the remaining records in their relative order, answers 204 with an empty
body, and a subsequent `getById` of that id is a NotFoundError. -/
theorem claim_C9_delete_spec (secret apiKey : Option String) (pid : String)
    (store : List Product)
    (hauth : authOk apiKey secret = true) (hnodup : (store.map Product.id).Nodup) :
    ((∀ p ∈ store, p.id ≠ pid) →
      deleteProduct secret apiKey pid store =
        (store, Resp.err (AppError.notFoundError "Product not found")) ∧
      (∀ now, (renderResp (Resp.err (AppError.notFoundError "Product not found")) now).1 = 404)) ∧
    (∀ pre p post, store = pre ++ p :: post → p.id = pid →
      deleteProduct secret apiKey pid store = (pre ++ post, Resp.noContent) ∧
      (∀ now, renderResp Resp.noContent now = (204, HttpBody.empty)) ∧
      getById pid (pre ++ post) = Except.error (AppError.notFoundError "Product not found")) := by
  constructor
  · intro habs
    exact ⟨by simp [deleteProduct, hauth, deleteInStore_none pid store habs], fun _ => rfl⟩
  · intro pre p post hstore hpid
    subst hstore
    have hids := nodup_middle_ids hnodup
    have hpre : ∀ q ∈ pre, q.id ≠ pid :=
      fun q hq he => hids.1 q hq (he.trans hpid.symm)
    have hpost : ∀ q ∈ post, q.id ≠ pid :=
      fun q hq he => hids.2 q hq (he.trans hpid.symm)
    refine ⟨?_, fun _ => rfl, ?_⟩
    · simp [deleteProduct, hauth, deleteInStore_append pid p hpid pre post hpre]
    · refine getById_not_mem pid (pre ++ post) ?_
      intro q hq
      rcases List.mem_append.1 hq with h | h
      · exact hpre q h
      · exact hpost q h

/-- C9 witness: deleting the middle record of a three-record store removes
exactly it, keeps the neighbours in order, and `getById` then fails. -/
theorem claim_C9_witness :
    deleteProduct (some "k") (some "k") "b" [sampleLaptop, sampleSmartphone, sampleChair] =
      ([sampleLaptop, sampleChair], Resp.noContent) ∧
    (∀ now, renderResp Resp.noContent now = (204, HttpBody.empty)) ∧
    getById "b" [sampleLaptop, sampleChair] =
      Except.error (AppError.notFoundError "Product not found") := by
  have h := (claim_C9_delete_spec (some "k") (some "k") "b"
    [sampleLaptop, sampleSmartphone, sampleChair] (by decide) (by decide)).2
    [sampleLaptop] sampleSmartphone [sampleChair] rfl rfl
  exact ⟨h.1, h.2.1, h.2.2⟩

/-- C4: listing with a page at least 1 reports as `total` the number of
records whose category matches case-insensitively (all records when no
category, or an empty one, is given) and returns as `products` the slice
`[(page-1)*limit, page*limit)` of the filtered sequence in store order. -/
theorem claim_C4_list_spec (category : Option String) (page limit : Nat)
    (store : List Product) (hpage : 1 ≤ page) :
    (category = none →
      (listProducts category page limit store).total = store.length ∧
      (listProducts category page limit store).products =
        (store.drop ((page - 1) * limit)).take limit) ∧
    (∀ c, category = some c → c.isEmpty = false →
      (listProducts category page limit store).total =
        store.countP (fun p => matchesCategory c p) ∧
      (listProducts category page limit store).products =
        ((store.filter (fun p => matchesCategory c p)).drop ((page - 1) * limit)).take limit) := by
  obtain ⟨k, rfl⟩ : ∃ k, page = k + 1 := ⟨page - 1, by omega⟩
  have hsl : ∀ l : List Product, jsSlice l (((k + 1) - 1) * limit) ((k + 1) * limit) =
      (l.drop (((k + 1) - 1) * limit)).take limit := by
    intro l
    unfold jsSlice
    congr 1
    have h1 : (k + 1) * limit = k * limit + limit := by ring
    simp only [Nat.add_sub_cancel]
    omega
  constructor
  · intro hc; subst hc
    exact ⟨rfl, hsl store⟩
  · intro c hc hce; subst hc
    refine ⟨?_, ?_⟩
    · simp [listProducts, hce, matchesCategory, List.countP_eq_length_filter]
    · simpa [listProducts, hce, matchesCategory] using
        hsl (store.filter (fun p => matchesCategory c p))

/-- C4 witness: on a store of exactly two Electronics records,
`list(category="Electronics", page=1, limit=1)` returns `total = 2` and only
the first Electronics record. -/
theorem claim_C4_witness :
    (listProducts (some "Electronics") 1 1 [sampleLaptop, sampleSmartphone]).total = 2 ∧
    (listProducts (some "Electronics") 1 1 [sampleLaptop, sampleSmartphone]).products =
      [sampleLaptop] := by
  have h := (claim_C4_list_spec (some "Electronics") 1 1 [sampleLaptop, sampleSmartphone]
    (by decide)).2 "Electronics" rfl (by decide)
  refine ⟨h.1.trans (by decide), h.2.trans (by decide)⟩

/-- C5 counterexample: on a reachable store holding a record without a
description, a non-empty query whose matches are the empty list does not
return that list: the filter evaluates `description.toLowerCase()` on an
absent value and the route fails with an unclassified error instead. -/
theorem claim_C5_counterexample :
    searchProducts (some "z") [sampleNoDesc] =
      Except.error (AppError.jsError descTypeErrorMsg) ∧
    [sampleNoDesc].filter (fun p => specMatches "z" p) = [] ∧
    searchProducts (some "z") [sampleNoDesc] ≠ Except.ok [] := by decide

/-- C5 amended: an absent or empty query is always a 400 ValidationError;
for a non-empty query, provided every stored record has a description,
search returns exactly the records whose name or description contains the
query case-insensitively, in store order. -/
theorem claim_C5_search_spec (q : Option String) (store : List Product)
    (hdesc : ∀ p ∈ store, p.description ≠ none) :
    (q = none ∨ q = some "" →
      searchProducts q store =
        Except.error (AppError.validationError "Search query is required") ∧
      (∀ now, (errorTranslator (AppError.validationError "Search query is required") now).1 = 400)) ∧
    (∀ s, q = some s → s.isEmpty = false →
      searchProducts q store = Except.ok (store.filter (fun p => specMatches s p))) := by
  constructor
  · rintro (rfl | rfl)
    · exact ⟨rfl, fun _ => rfl⟩
    · exact ⟨rfl, fun _ => rfl⟩
  · intro s hq hs
    subst hq
    simp [searchProducts, hs, searchFilter_ok_of_desc s store hdesc]

/-- C5 witness: on the three seeded-like records (all with descriptions),
`search(q="phone")` returns exactly the smartphone, and an absent query is a
400 ValidationError. -/
theorem claim_C5_witness :
    searchProducts (some "phone") [sampleLaptop, sampleSmartphone, sampleChair] =
      Except.ok [sampleSmartphone] ∧
    searchProducts none [sampleLaptop, sampleSmartphone, sampleChair] =
      Except.error (AppError.validationError "Search query is required") := by
  have h1 := (claim_C5_search_spec (some "phone")
    [sampleLaptop, sampleSmartphone, sampleChair] (by decide)).2 "phone" rfl (by decide)
  have h2 := (claim_C5_search_spec none
    [sampleLaptop, sampleSmartphone, sampleChair] (by decide)).1 (Or.inl rfl)
  exact ⟨h1.trans (by decide), h2.1⟩

/-- C6 counterexample: a store can hold a record without a description and
still serve a non-empty query without any failure: when the query matches
the record's name, JS `||` short-circuits and `description.toLowerCase()` is
never evaluated, so the claim's "any non-empty query raises" is wrong. -/
theorem claim_C6_counterexample :
    sampleNoDesc.description = none ∧
    "w".isEmpty = false ∧
    searchProducts (some "w") [sampleNoDesc] = Except.ok [sampleNoDesc] := by decide

/-- C6 amended: for a non-empty query, search fails with the unclassified
TypeError (translated to HTTP 500) exactly when some stored record has no
description and its name does not contain the query case-insensitively;
in particular, when every record has a description, the missing-query 400 is
search's only failure mode. -/
theorem claim_C6_search_failure_iff (s : String) (store : List Product)
    (hs : s.isEmpty = false) :
    (searchProducts (some s) store = Except.error (AppError.jsError descTypeErrorMsg) ↔
      ∃ p ∈ store, p.description = none ∧ includesCI p.name s = false) ∧
    (∀ now, (errorTranslator (AppError.jsError descTypeErrorMsg) now).1 = 500) := by
  constructor
  · simpa [searchProducts, hs] using searchFilter_error_iff s store
  · intro _; rfl

/-- C6 witness: a store holding a description-less record whose name does
not contain the query makes search fail with the unclassified error. -/
theorem claim_C6_witness :
    "z".isEmpty = false ∧
    searchProducts (some "z") [sampleLaptop, sampleNoDesc] =
      Except.error (AppError.jsError descTypeErrorMsg) := by
  refine ⟨by decide, ?_⟩
  exact ((claim_C6_search_failure_iff "z" [sampleLaptop, sampleNoDesc] (by decide)).1).2
    (by decide)

/-- C10: every failure reaching the error translator yields the envelope
`{error: {message, status, timestamp}}` whose HTTP status and `status` field
both equal the failure's declared code — 400 for ValidationError, 404 for
NotFoundError — or 500 when the failure declares none; the catch-all
middleware turns any unmatched route into this envelope with status 404 and
message "Endpoint not found". -/
theorem claim_C10_error_translator (e : AppError) (now : String) :
    errorTranslator e now =
      (e.statusCode.getD 500,
        HttpBody.errorEnvelope
          (if e.message.isEmpty then "Internal Server Error" else e.message)
          (e.statusCode.getD 500) now) ∧
    (∀ m, (AppError.validationError m).statusCode = some 400) ∧
    (∀ m, (AppError.notFoundError m).statusCode = some 404) ∧
    (∀ m, (AppError.jsError m).statusCode = none) ∧
    (∀ m now2, (errorTranslator (AppError.jsError m) now2).1 = 500) ∧
    errorTranslator unmatchedRouteError now =
      (404, HttpBody.errorEnvelope "Endpoint not found" 404 now) :=
  ⟨rfl, fun _ => rfl, fun _ => rfl, fun _ => rfl, fun _ _ => rfl, rfl⟩

end ProductsApi
